import Mathlib

/-!
Verification of the `daemon` package (FreeBSD rc.d and Darwin launchd
variants) against its natural-language specification.

The Go sources are shallowly embedded: each lifecycle operation becomes a
pure Lean function from an explicit environment (the results the OS would
return for each stat / open / subprocess step) to an outcome together with
the ordered trace of externally visible events the operation performs.
Strings are modelled as Lean `String`s (Go iterates runes; we iterate
`Char`s).  The shared file `daemon.go` of the repository (defining
`checkPrivileges`, `executablePath`, the `failed`/`success` message
suffixes and the error constants) is not part of the sources; those parts
are modelled from the spec and marked as such.
-/

namespace DaemonVerif

/-- Boolean test that `n` is a prefix of `l`, by rune-for-rune comparison. -/
def prefixOfL : List Char → List Char → Bool
  | [], _ => true
  | _ :: _, [] => false
  | a :: as, b :: bs => (a == b) && prefixOfL as bs

/-- Boolean substring search: does `n` occur contiguously inside `l`?
This models Go's `regexp` matching of a pattern that is a literal string
(no metacharacters), as used by `regexp.MatchString(name, output)` and the
`Find` of the enablement pattern for literal service names. -/
def subOfL (n : List Char) : List Char → Bool
  | [] => n.isEmpty
  | c :: cs => prefixOfL n (c :: cs) || subOfL n cs

/-- String-level wrapper of `subOfL`: does `needle` occur inside `hay`? -/
def hasSub (hay needle : String) : Bool :=
  subOfL needle.data hay.data

/-- Longest run of decimal digits at the front of the list; this models the
greedy `[0-9]+` of the status regexes. -/
def digitsOf : List Char → List Char
  | [] => []
  | c :: cs => if c.isDigit then c :: digitsOf cs else []

/-- Errors surfaced by the daemon layer.  `osErr n` stands for a
pass-through OS error (stat, create, subprocess, ...) identified by an
arbitrary numeric code; the named constructors are the package's
distinguished error constants.  `privilege` is modelled from the spec:
the Privilege Guard "fails fast with a distinguished error". -/
inductive Err where
  | privilege
  | alreadyRunning
  | alreadyStopped
  | incorrectExecStartPath
  | osErr (code : Nat)
  deriving DecidableEq, Repr

/-- Result of `os.Stat` on the execution path: success (carrying whether
the file is a directory), a not-found error (`os.IsNotExist` is true), or
any other stat error. -/
inductive StatResult where
  | ok (isDir : Bool)
  | notFound
  | statErr (code : Nat)
  deriving DecidableEq, Repr

/-- Outcome of a lifecycle operation: a returned `(message, error)` pair,
or a runtime panic aborting the process. -/
inductive Outcome where
  | ret (msg : String) (err : Option Err)
  | panic
  deriving DecidableEq, Repr

/-- Externally visible events an operation performs, in order:
privilege check, a stat of a path, opening `/etc/rc.conf`, invoking a
subprocess, creating / rendering into / chmodding / removing the
descriptor file. -/
inductive Event where
  | checkPriv
  | statFile (path : String)
  | openRcConf
  | execCmd (prog : String) (args : List String)
  | createFile (path : String)
  | renderTo (path : String)
  | chmodFile (path : String)
  | removeFile (path : String)
  deriving DecidableEq, Repr

/-- The service record: `bsdRecord` / `darwinRecord` in the sources. -/
structure Record where
  name : String
  description : String
  execStartPath : String
  dependencies : List String
  deriving DecidableEq, Repr

/-- Environment: the responses the operating system gives to each external
step an operation may take.  `none` for an `Option Err` field means the
step succeeds. -/
structure Env where
  /-- Modelled from the spec: `checkPrivileges` (missing `daemon.go`)
  returns `(true, nil)` or `(false, <distinguished error>)`. -/
  priv : Option Err
  /-- Result of `os.Stat` on the descriptor path (`none` = file exists). -/
  statSrv : Option Err
  /-- Modelled from the spec: `executablePath` (missing `daemon.go`), the
  Executable Path Resolver, returns an absolute path or an error. -/
  execPathRes : Except Err String
  /-- Result of `os.Stat` on the execution path. -/
  statExec : StatResult
  /-- Result of `os.Create` on the descriptor path. -/
  createRes : Option Err
  /-- Result of `templ.Execute` (rendering into the created file). -/
  renderRes : Option Err
  /-- Result of `os.Chmod` on the descriptor path (rc.d only). -/
  chmodRes : Option Err
  /-- Content of `/etc/rc.conf`, or the error from opening it. -/
  rcConf : Except Err String
  /-- Output of the status-query command (`none` = the command errs). -/
  statusOut : Option String
  /-- Result of running the start/stop service-manager command. -/
  runCmdRes : Option Err

/-- Modelled from the spec: the failure suffix of every mutating
operation's message (constant `failed` of the missing `daemon.go`). -/
def failed : String := "failed"

/-- Modelled from the spec: the success suffix of every mutating
operation's message (constant `success` of the missing `daemon.go`). -/
def success : String := "completed successfully"

/-- Descriptor path of the rc.d variant (`bsdRecord.servicePath`). -/
def bsdServicePath (r : Record) : String :=
  "/usr/local/etc/rc.d/" ++ r.name

/-- Descriptor path of the launchd variant (`darwinRecord.servicePath`). -/
def darwinServicePath (r : Record) : String :=
  "/Library/LaunchDaemons/" ++ r.name ++ ".plist"

/-- Shared logic of `IsInstalled` on both variants: stat the descriptor
path; on success return `(true, nil)`, otherwise `(false, <stat error>)`. -/
def isInstalledPure (statSrv : Option Err) : Bool × Option Err :=
  match statSrv with
  | none => (true, none)
  | some e => (false, some e)

/-- The comment-scan loop of `bsdRecord.isEnabled` over the matched text:
a `#` before any non-space rune voids the match; a non-space rune other
than `#` confirms it; spaces are skipped; an exhausted string yields
`false` (the loop's `chrFound` stays unset). -/
def scanLine : List Char → Bool
  | [] => false
  | c :: cs =>
    if c == '#' then false
    else if c == ' ' then scanLine cs
    else true

/-- Splitting of a rune sequence into its newline-separated lines
(the segments Go's `.` can range over). -/
def splitLines : List Char → List (List Char)
  | [] => [[]]
  | c :: cs =>
    if c == '\n' then [] :: splitLines cs
    else match splitLines cs with
      | [] => [[c]]
      | l :: ls => (c :: l) :: ls

/-- The text found by `regexp.Find` for the pattern
`.*<name>_enable="YES".*` (for a literal service name): since `.` does not
cross newlines and both `.*` are greedy under leftmost matching, the match
is the entire first line of the file that contains the literal
`<name>_enable="YES"`, or the empty string when no line does. -/
def findEnableLine (name : String) (data : String) : String :=
  match (splitLines data.data).find?
      (fun l => subOfL (name ++ "_enable=\"YES\"").data l) with
  | some l => String.mk l
  | none => ""

/-- Embedding of `bsdRecord.isEnabled`: open `/etc/rc.conf` (an open error
is returned as `(false, err)`), find the enablement line, scan it. -/
def isEnabled (name : String) (rcConf : Except Err String) :
    Bool × Option Err :=
  match rcConf with
  | .error e => (false, some e)
  | .ok data => (scanLine (findEnableLine name data).data, none)

/-- Embedding of `bsdRecord.getCmd`: prepend `"one"` to the verb when the
service is not enabled or the enablement check errs. -/
def getCmd (name : String) (rcConf : Except Err String) (cmd : String) :
    String :=
  match isEnabled name rcConf with
  | (ok, err) => if !ok || err.isSome then "one" ++ cmd else cmd

/-- Leftmost match of the rc.d pid pattern `pid  ([0-9]+)`: at the first
position where the literal `"pid  "` is followed by at least one digit,
return the maximal digit run; otherwise keep scanning. -/
def findPidL : List Char → Option (List Char)
  | [] => none
  | c :: cs =>
    if prefixOfL "pid  ".data (c :: cs) then
      if (digitsOf ((c :: cs).drop 5)).isEmpty then findPidL cs
      else some (digitsOf ((c :: cs).drop 5))
    else findPidL cs

/-- Leftmost match of the launchd pid pattern `PID" = ([0-9]+);`: the
literal `PID" = ` must be followed by at least one digit and the maximal
digit run must be followed immediately by `;`. -/
def findPidDarwin : List Char → Option (List Char)
  | [] => none
  | c :: cs =>
    if prefixOfL "PID\" = ".data (c :: cs) then
      if !(digitsOf ((c :: cs).drop 7)).isEmpty &&
          ((((c :: cs).drop 7).drop
            (digitsOf ((c :: cs).drop 7)).length).head? == some ';') then
        some (digitsOf ((c :: cs).drop 7))
      else findPidDarwin cs
    else findPidDarwin cs

/-- Parsing part of `bsdRecord.checkRunning`, as a function of the status
command's output (`none` when the command errs): an erring command or
output not containing the name is "stopped"; otherwise the pid pattern
decides between the pid-bearing and the generic running message. -/
def bsdCheckRunningParse (name : String) (out : Option String) :
    String × Bool :=
  match out with
  | none => ("Service is stopped", false)
  | some o =>
    if hasSub o name then
      match findPidL o.data with
      | some ds => ("Service (pid  " ++ String.mk ds ++ ") is running...", true)
      | none => ("Service is running...", true)
    else ("Service is stopped", false)

/-- Parsing part of `darwinRecord.checkRunning`, analogous to the rc.d
variant but with the launchd pid pattern. -/
def darwinCheckRunningParse (name : String) (out : Option String) :
    String × Bool :=
  match out with
  | none => ("Service is stopped", false)
  | some o =>
    if hasSub o name then
      match findPidDarwin o.data with
      | some ds => ("Service (pid  " ++ String.mk ds ++ ") is running...", true)
      | none => ("Service is running...", true)
    else ("Service is stopped", false)

/-- Embedding of `bsdRecord.Install`, producing the outcome and the
ordered trace of external events.  The steps mirror the source exactly:
privilege check, stat of the descriptor path (the already-installed branch
returns the stat's error, which is nil there), lazy path resolution, stat
of the execution path (a stat error other than not-found dereferences the
nil `FileInfo` and panics), `os.Create`, template parse (of a constant
template, which always succeeds), `templ.Execute`, `os.Chmod`. -/
def bsdInstall (r : Record) (env : Env) : Outcome × List Event :=
  let action := "Install " ++ r.description ++ ":"
  let ev0 := [Event.checkPriv]
  match env.priv with
  | some e => (.ret (action ++ failed) (some e), ev0)
  | none =>
    let srv := bsdServicePath r
    let ev1 := ev0 ++ [Event.statFile srv]
    match env.statSrv with
    | none => (.ret (action ++ failed) none, ev1)
    | some _ =>
      match (if r.execStartPath == "" then env.execPathRes
             else .ok r.execStartPath) with
      | .error e => (.ret (action ++ failed) (some e), ev1)
      | .ok path =>
        let ev2 := ev1 ++ [Event.statFile path]
        match env.statExec with
        | .notFound =>
            (.ret (action ++ failed) (some .incorrectExecStartPath), ev2)
        | .statErr _ => (.panic, ev2)
        | .ok isDir =>
          if isDir then
            (.ret (action ++ failed) (some .incorrectExecStartPath), ev2)
          else
            let ev3 := ev2 ++ [Event.createFile srv]
            match env.createRes with
            | some e => (.ret (action ++ failed) (some e), ev3)
            | none =>
              let ev4 := ev3 ++ [Event.renderTo srv]
              match env.renderRes with
              | some e => (.ret (action ++ failed) (some e), ev4)
              | none =>
                let ev5 := ev4 ++ [Event.chmodFile srv]
                match env.chmodRes with
                | some e => (.ret (action ++ failed) (some e), ev5)
                | none => (.ret (action ++ success) none, ev5)

/-- Embedding of `darwinRecord.Install`: identical to the rc.d variant
except for the descriptor path and the absence of the chmod step. -/
def darwinInstall (r : Record) (env : Env) : Outcome × List Event :=
  let action := "Install " ++ r.description ++ ":"
  let ev0 := [Event.checkPriv]
  match env.priv with
  | some e => (.ret (action ++ failed) (some e), ev0)
  | none =>
    let srv := darwinServicePath r
    let ev1 := ev0 ++ [Event.statFile srv]
    match env.statSrv with
    | none => (.ret (action ++ failed) none, ev1)
    | some _ =>
      match (if r.execStartPath == "" then env.execPathRes
             else .ok r.execStartPath) with
      | .error e => (.ret (action ++ failed) (some e), ev1)
      | .ok path =>
        let ev2 := ev1 ++ [Event.statFile path]
        match env.statExec with
        | .notFound =>
            (.ret (action ++ failed) (some .incorrectExecStartPath), ev2)
        | .statErr _ => (.panic, ev2)
        | .ok isDir =>
          if isDir then
            (.ret (action ++ failed) (some .incorrectExecStartPath), ev2)
          else
            let ev3 := ev2 ++ [Event.createFile srv]
            match env.createRes with
            | some e => (.ret (action ++ failed) (some e), ev3)
            | none =>
              let ev4 := ev3 ++ [Event.renderTo srv]
              match env.renderRes with
              | some e => (.ret (action ++ failed) (some e), ev4)
              | none => (.ret (action ++ success) none, ev4)

/-- Embedding of `bsdRecord.Remove`: privilege check, installed check
(the not-installed branch returns the stat error), delete the file. -/
def bsdRemove (r : Record) (env : Env) : Outcome × List Event :=
  let action := "Removing " ++ r.description ++ ":"
  let ev0 := [Event.checkPriv]
  match env.priv with
  | some e => (.ret (action ++ failed) (some e), ev0)
  | none =>
    let srv := bsdServicePath r
    let ev1 := ev0 ++ [Event.statFile srv]
    match env.statSrv with
    | some e => (.ret (action ++ failed) (some e), ev1)
    | none =>
      let ev2 := ev1 ++ [Event.removeFile srv]
      match env.runCmdRes with
      | some e => (.ret (action ++ failed) (some e), ev2)
      | none => (.ret (action ++ success) none, ev2)

/-- Embedding of `bsdRecord.Start`.  `checkRunning` first invokes
`getCmd "status"` (which evaluates the enablement check, opening
`/etc/rc.conf`) and then the status command; when not running, the start
command is issued with the verb selected by a second enablement check. -/
def bsdStart (r : Record) (env : Env) : Outcome × List Event :=
  let action := "Starting " ++ r.description ++ ":"
  let ev0 := [Event.checkPriv]
  match env.priv with
  | some e => (.ret (action ++ failed) (some e), ev0)
  | none =>
    let ev1 := ev0 ++ [Event.statFile (bsdServicePath r)]
    match env.statSrv with
    | some e => (.ret (action ++ failed) (some e), ev1)
    | none =>
      let statusVerb := getCmd r.name env.rcConf "status"
      let ev2 := ev1 ++
        [Event.openRcConf, Event.execCmd "service" [r.name, statusVerb]]
      if (bsdCheckRunningParse r.name env.statusOut).2 then
        (.ret (action ++ failed) (some .alreadyRunning), ev2)
      else
        let startVerb := getCmd r.name env.rcConf "start"
        let ev3 := ev2 ++
          [Event.openRcConf, Event.execCmd "service" [r.name, startVerb]]
        match env.runCmdRes with
        | some e => (.ret (action ++ failed) (some e), ev3)
        | none => (.ret (action ++ success) none, ev3)

/-- Embedding of `bsdRecord.Stop`, symmetric to `bsdStart` with the
running precondition inverted and the stop verb. -/
def bsdStop (r : Record) (env : Env) : Outcome × List Event :=
  let action := "Stopping " ++ r.description ++ ":"
  let ev0 := [Event.checkPriv]
  match env.priv with
  | some e => (.ret (action ++ failed) (some e), ev0)
  | none =>
    let ev1 := ev0 ++ [Event.statFile (bsdServicePath r)]
    match env.statSrv with
    | some e => (.ret (action ++ failed) (some e), ev1)
    | none =>
      let statusVerb := getCmd r.name env.rcConf "status"
      let ev2 := ev1 ++
        [Event.openRcConf, Event.execCmd "service" [r.name, statusVerb]]
      if (bsdCheckRunningParse r.name env.statusOut).2 then
        let stopVerb := getCmd r.name env.rcConf "stop"
        let ev3 := ev2 ++
          [Event.openRcConf, Event.execCmd "service" [r.name, stopVerb]]
        match env.runCmdRes with
        | some e => (.ret (action ++ failed) (some e), ev3)
        | none => (.ret (action ++ success) none, ev3)
      else
        (.ret (action ++ failed) (some .alreadyStopped), ev2)

/-- Embedding of `darwinRecord.Start`: the status probe is
`launchctl list <name>` and the start command is
`launchctl load <descriptor path>`. -/
def darwinStart (r : Record) (env : Env) : Outcome × List Event :=
  let action := "Starting " ++ r.description ++ ":"
  let ev0 := [Event.checkPriv]
  match env.priv with
  | some e => (.ret (action ++ failed) (some e), ev0)
  | none =>
    let ev1 := ev0 ++ [Event.statFile (darwinServicePath r)]
    match env.statSrv with
    | some e => (.ret (action ++ failed) (some e), ev1)
    | none =>
      let ev2 := ev1 ++ [Event.execCmd "launchctl" ["list", r.name]]
      if (darwinCheckRunningParse r.name env.statusOut).2 then
        (.ret (action ++ failed) (some .alreadyRunning), ev2)
      else
        let ev3 := ev2 ++
          [Event.execCmd "launchctl" ["load", darwinServicePath r]]
        match env.runCmdRes with
        | some e => (.ret (action ++ failed) (some e), ev3)
        | none => (.ret (action ++ success) none, ev3)

/-- Text of the rc.d template `bsdConfig` up to the `.Args` hole, with the
five `.Name` splices and the `.Path` splice filled in. -/
def bsdPre (name path : String) : String :=
  "#!/bin/sh\n#\n# PROVIDE: " ++ name ++
  "\n# REQUIRE: networking syslog\n# KEYWORD:\n\n# Add the following lines to /etc/rc.conf to enable the " ++
  name ++ ":\n#\n# " ++ name ++
  "_enable=\"YES\"\n#\n\n\n. /etc/rc.subr\n\nname=\"" ++ name ++
  "\"\nrcvar=\"" ++ name ++ "_enable\"\ncommand=\"" ++ path ++
  "\"\npidfile=\"/var/run/$name.pid\"\n\nstart_cmd=\"/usr/sbin/daemon -p $pidfile -f $command "

/-- Text of the rc.d template after the `.Args` hole. -/
def bsdPost : String := "\"\nload_rc_config $name\nrun_rc_command \"$1\"\n"

/-- Rendering of the rc.d descriptor template `bsdConfig` at the data the
source passes to `templ.Execute` (Name, Description, Path, Args with Args
already joined by spaces).  The template references Name, Path and Args
but never Description, so `desc` does not occur on the right-hand side. -/
def bsdConfigRender (name desc path argsJoined : String) : String :=
  bsdPre name path ++ argsJoined ++ bsdPost

/-- One repetition of the body of the template's range block over `.Args`:
the text between the range and end actions, with the argument spliced in. -/
def plistEntry (a : String) : String :=
  "<string>" ++ a ++ "</string>\n\t\t"

/-- Text of the launchd template `propertyList` before the range block,
with Name and Path spliced in. -/
def plistPre (name path : String) : String :=
  "<?xml version=\"1.0\" encoding=\"UTF-8\"?>\n<!DOCTYPE plist PUBLIC \"-//Apple//DTD PLIST 1.0//EN\" \"http://www.apple.com/DTDs/PropertyList-1.0.dtd\">\n<plist version=\"1.0\">\n<dict>\n\t<key>KeepAlive</key>\n\t<true/>\n\t<key>Label</key>\n\t<string>" ++
  name ++
  "</string>\n\t<key>ProgramArguments</key>\n\t<array>\n\t    <string>" ++
  path ++ "</string>\n\t\t"

/-- Text of the launchd template after the range block, with Name spliced
into the two log paths. -/
def plistPost (name : String) : String :=
  "\n\t</array>\n\t<key>RunAtLoad</key>\n\t<true/>\n    <key>WorkingDirectory</key>\n    <string>/usr/local/var</string>\n    <key>StandardErrorPath</key>\n    <string>/usr/local/var/log/" ++
  name ++
  ".err</string>\n    <key>StandardOutPath</key>\n    <string>/usr/local/var/log/" ++
  name ++ ".log</string>\n</dict>\n</plist>\n"

/-- The range block of the launchd template: one `plistEntry` per trailing
argument, in order. -/
def plistEntries : List String → String
  | [] => ""
  | a :: as => plistEntry a ++ plistEntries as

/-- Rendering of the launchd descriptor template `propertyList` at the
data the source passes to `templ.Execute` (Name, Path, Args as a list):
the range block emits one entry per trailing argument, in order.  The
darwin source does not pass the description at all. -/
def propertyListRender (name path : String) (args : List String) : String :=
  plistPre name path ++ plistEntries args ++ plistPost name

/-- A record used in the concrete evidence theorems below. -/
def sampleRec : Record :=
  { name := "x", description := "mydesc", execStartPath := "/usr/bin/x",
    dependencies := [] }

/-- A baseline environment: privileges held, descriptor absent (stat of the
descriptor path fails with a not-found error code), execution path valid,
every subsequent step succeeding, service not enabled and not running. -/
def okEnv : Env :=
  { priv := none, statSrv := some (.osErr 2), execPathRes := .ok "/usr/bin/x",
    statExec := .ok false, createRes := none, renderRes := none,
    chmodRes := none, rcConf := .ok "", statusOut := none,
    runCmdRes := none }

/-- C1: the claim states that every mutating operation returns a non-nil
error exactly when its message carries the failure suffix.  The code
violates this: when the descriptor already exists, `Install` on either
variant returns the failure-suffixed message together with the *nil* error
of the successful `os.Stat` inside `IsInstalled` (the `check`/`err` pair of
`if check, err := IsInstalled(); check { return installAction + failed,
err }` has `err = nil` whenever `check` is true).  This theorem evaluates
both Installs on an already-installed record with privileges held. -/
theorem c1_failure_message_with_nil_error :
    (bsdInstall sampleRec { okEnv with statSrv := none }).1 =
      .ret ("Install mydesc:" ++ failed) none ∧
    (darwinInstall sampleRec { okEnv with statSrv := none }).1 =
      .ret ("Install mydesc:" ++ failed) none := by
  exact ⟨rfl, rfl⟩

/-- C2: the claim states that a renderer failure aborts `Install` before
any file is created.  In the code `os.Create(srvPath)` runs before the
template is parsed or executed, so when rendering fails the descriptor
file has already been created and is left behind: the trace below contains
the create event followed by the render attempt, with no removal, and the
operation returns the render error. -/
theorem c2_file_created_before_render :
    bsdInstall sampleRec { okEnv with renderRes := some (.osErr 5) } =
      (.ret ("Install mydesc:" ++ failed) (some (.osErr 5)),
       [Event.checkPriv, Event.statFile "/usr/local/etc/rc.d/x",
        Event.statFile "/usr/bin/x",
        Event.createFile "/usr/local/etc/rc.d/x",
        Event.renderTo "/usr/local/etc/rc.d/x"]) ∧
    darwinInstall sampleRec { okEnv with renderRes := some (.osErr 5) } =
      (.ret ("Install mydesc:" ++ failed) (some (.osErr 5)),
       [Event.checkPriv, Event.statFile "/Library/LaunchDaemons/x.plist",
        Event.statFile "/usr/bin/x",
        Event.createFile "/Library/LaunchDaemons/x.plist",
        Event.renderTo "/Library/LaunchDaemons/x.plist"]) := by
  exact ⟨rfl, rfl⟩

/-- C3: the claim states that `Install` on an already-installed record
returns an `AlreadyInstalledError`.  The code instead returns the nil
error of the successful stat (see C1); the no-mutation half of the claim
does hold: the trace stops at the privilege check and the stat, with no
create, render, chmod or remove event.  Evaluated here on the launchd
variant (the rc.d variant is evaluated in the C1 theorem). -/
theorem c3_already_installed_nil_error_no_mutation :
    darwinInstall sampleRec { okEnv with statSrv := none } =
      (.ret ("Install mydesc:" ++ failed) none,
       [Event.checkPriv, Event.statFile "/Library/LaunchDaemons/x.plist"]) := by
  exact rfl

/-- C4: the claim states that no operation aborts the calling process,
even when `os.Stat` of the execution path fails with an error other than
not-found.  In the code `if stat, err := os.Stat(path); os.IsNotExist(err)
|| stat.IsDir()` calls `IsDir` on the nil `FileInfo` whenever the stat
error is not a not-found error, a nil-pointer dereference that panics and
aborts the process.  Evaluated here with a permission-style stat error on
both variants. -/
theorem c4_stat_error_panics :
    bsdInstall sampleRec { okEnv with statExec := .statErr 13 } =
      (.panic,
       [Event.checkPriv, Event.statFile "/usr/local/etc/rc.d/x",
        Event.statFile "/usr/bin/x"]) ∧
    darwinInstall sampleRec { okEnv with statExec := .statErr 13 } =
      (.panic,
       [Event.checkPriv, Event.statFile "/Library/LaunchDaemons/x.plist",
        Event.statFile "/usr/bin/x"]) := by
  exact ⟨rfl, rfl⟩

/-- C10: on both variants `IsInstalled` stats the descriptor path and
returns `(true, nil)` on success and `(false, <stat error>)` on failure,
so the verdict is `true` exactly when the returned error is nil, and a
`false` verdict always carries the stat's own non-nil error.
`isInstalledPure` is the shared embedding of `bsdRecord.IsInstalled` and
`darwinRecord.IsInstalled` as a function of the stat result. -/
theorem c10_isInstalled_verdict_error_pairing :
    (∀ s : Option Err, isInstalledPure s = (s.isNone, s)) ∧
    (∀ s : Option Err,
      ((isInstalledPure s).1 == (isInstalledPure s).2.isNone) = true) ∧
    isInstalledPure none = (true, none) ∧
    (∀ e : Err, isInstalledPure (some e) = (false, some e)) := by
  refine ⟨fun s => ?_, fun s => ?_, rfl, fun e => rfl⟩ <;> cases s <;> rfl

/-- The comment-scan loop is equivalent to inspecting the first non-space
rune of the text: none means disabled, `#` means commented-out (disabled),
anything else means enabled. -/
theorem scanLine_eq_dropWhile (l : List Char) :
    scanLine l = (match l.dropWhile (fun c => c == ' ') with
      | [] => false
      | c :: _ => !(c == '#')) := by
  induction l with
  | nil => rfl
  | cons c cs ih =>
    by_cases h1 : c = '#'
    · subst h1
      simp [scanLine, List.dropWhile]
    · have h1' : (c == '#') = false := by simp [h1]
      by_cases h2 : c = ' '
      · subst h2
        simpa [scanLine, List.dropWhile] using ih
      · have h2' : (c == ' ') = false := by simp [h2]
        simp [scanLine, List.dropWhile, h1', h2']

/-- C5: the enablement check finds the first line of the boot
configuration containing `<name>_enable="YES"` (that is what
`regexp.Find` of `.*<name>_enable="YES".*` returns for a literal name, as
embedded by `findEnableLine`), and scanning that line left-to-right
returns enabled exactly when a rune other than space and `#` occurs
before any `#`; a file with no matching line, or an unreadable file,
yields disabled.  The four concrete inputs of the spec evaluate as
claimed. -/
theorem c5_enablement_check :
    (∀ name data, isEnabled name (.ok data) =
      ((match (findEnableLine name data).data.dropWhile (fun c => c == ' ') with
        | [] => false
        | c :: _ => !(c == '#')), none)) ∧
    (∀ name e, isEnabled name (.error e) = (false, some e)) ∧
    (∀ name data,
      ((splitLines data.data).all
        (fun l => !subOfL (name ++ "_enable=\"YES\"").data l)) = true →
      isEnabled name (.ok data) = (false, none)) ∧
    isEnabled "foo" (.ok "foo_enable=\"YES\"") = (true, none) ∧
    isEnabled "foo" (.ok "#foo_enable=\"YES\"") = (false, none) ∧
    isEnabled "foo" (.ok "  foo_enable=\"YES\"") = (true, none) ∧
    isEnabled "foo" (.ok "unrelated text") = (false, none) := by
  refine ⟨fun name data => ?_, fun name e => rfl, fun name data h => ?_,
    by decide, by decide, by decide, by decide⟩
  · simp only [isEnabled, scanLine_eq_dropWhile]
  · have hfind : (splitLines data.data).find?
        (fun l => subOfL (name ++ "_enable=\"YES\"").data l) = none := by
      rw [List.find?_eq_none]
      intro l hl
      have := (List.all_eq_true.mp h) l hl
      simpa using this
    simp only [isEnabled, findEnableLine]
    rw [hfind]
    rfl

/-- Witness for the C5 theorem at the spec's "unrelated text" input. -/
theorem c5_enablement_check_witness :
    isEnabled "foo" (.ok "unrelated text") = (false, none) :=
  c5_enablement_check.2.2.1 "foo" "unrelated text" (by decide)

/-- A list is a prefix of itself followed by anything. -/
theorem prefixOfL_append (n v : List Char) : prefixOfL n (n ++ v) = true := by
  induction n with
  | nil => rfl
  | cons a as ih => simp [prefixOfL, ih]

/-- A successful prefix test yields a decomposition. -/
theorem prefixOfL_decomp {n l : List Char} (h : prefixOfL n l = true) :
    ∃ v, l = n ++ v := by
  induction n generalizing l with
  | nil => exact ⟨l, rfl⟩
  | cons a as ih =>
    cases l with
    | nil => simp [prefixOfL] at h
    | cons b bs =>
      simp only [prefixOfL, Bool.and_eq_true, beq_iff_eq] at h
      obtain ⟨h1, h2⟩ := h
      obtain ⟨v, hv⟩ := ih h2
      exact ⟨v, by simp [h1, hv]⟩

/-- Every rune collected by `digitsOf` is a digit. -/
theorem digitsOf_all (l : List Char) : ∀ c ∈ digitsOf l, c.isDigit = true := by
  induction l with
  | nil => simp [digitsOf]
  | cons c cs ih =>
    by_cases h : c.isDigit = true
    · intro d hd
      rw [digitsOf, if_pos h] at hd
      rcases List.mem_cons.mp hd with rfl | hd'
      · exact h
      · exact ih d hd'
    · intro d hd
      rw [digitsOf, if_neg h] at hd
      simp at hd

/-- A list is its leading digit run followed by the rest. -/
theorem digitsOf_decomp (l : List Char) :
    l = digitsOf l ++ l.drop (digitsOf l).length := by
  induction l with
  | nil => rfl
  | cons c cs ih =>
    by_cases h : c.isDigit = true
    · rw [digitsOf, if_pos h]
      simpa using ih
    · rw [digitsOf, if_neg h]
      rfl

/-- The digit run of an all-digit list followed by a semicolon is the list
itself. -/
theorem digitsOf_append_semi (ds rest : List Char)
    (h : ∀ c ∈ ds, c.isDigit = true) :
    digitsOf (ds ++ ';' :: rest) = ds := by
  induction ds with
  | nil => rfl
  | cons d ds' ih =>
    have hd : d.isDigit = true := h d (by simp)
    rw [List.cons_append, digitsOf, if_pos hd,
      ih (fun c hc => h c (by simp [hc]))]

/-- Unfolding equation of `findPidL` on a nonempty list. -/
theorem findPidL_cons (c : Char) (cs : List Char) :
    findPidL (c :: cs) =
      if prefixOfL "pid  ".data (c :: cs) then
        if (digitsOf ((c :: cs).drop 5)).isEmpty then findPidL cs
        else some (digitsOf ((c :: cs).drop 5))
      else findPidL cs := rfl

/-- Soundness of the rc.d pid search: a returned digit run is nonempty,
all digits, and occurs in the scanned text immediately after the literal
`"pid  "`. -/
theorem findPidL_sound {l ds : List Char} (h : findPidL l = some ds) :
    ds ≠ [] ∧ (∀ c ∈ ds, c.isDigit = true) ∧
    ∃ u v, l = u ++ "pid  ".data ++ ds ++ v := by
  induction l with
  | nil => simp [findPidL] at h
  | cons c cs ih =>
    rw [findPidL_cons] at h
    by_cases hp : prefixOfL "pid  ".data (c :: cs) = true
    · rw [if_pos hp] at h
      by_cases he : (digitsOf ((c :: cs).drop 5)).isEmpty = true
      · rw [if_pos he] at h
        obtain ⟨h1, h2, u, v, hl⟩ := ih h
        exact ⟨h1, h2, c :: u, v, by simp [hl]⟩
      · rw [if_neg he] at h
        have hds : digitsOf ((c :: cs).drop 5) = ds := Option.some.inj h
        obtain ⟨w, hw⟩ := prefixOfL_decomp hp
        have hlen : ("pid  ".data).length = 5 := rfl
        have hdrop : (c :: cs).drop 5 = w := by
          rw [hw, ← hlen, List.drop_left]
        have hds2 : digitsOf w = ds := by rw [← hdrop, hds]
        have hwdec : w = ds ++ w.drop ds.length := by
          conv_lhs => rw [digitsOf_decomp w]
          rw [hds2]
        refine ⟨?_, ?_, [], w.drop ds.length, ?_⟩
        · intro hds0
          apply he
          rw [hds, hds0]
          rfl
        · rw [← hds2]; exact digitsOf_all w
        · rw [hw, List.nil_append]
          conv_lhs => rw [hwdec]
          rw [List.append_assoc]
    · rw [if_neg hp] at h
      obtain ⟨h1, h2, u, v, hl⟩ := ih h
      exact ⟨h1, h2, c :: u, v, by simp [hl]⟩

/-- Completeness of the rc.d pid search: if the text contains the literal
`"pid  "` followed by a digit anywhere, the search succeeds. -/
theorem findPidL_complete (u : List Char) (c : Char) (rest : List Char)
    (hc : c.isDigit = true) :
    (findPidL (u ++ "pid  ".data ++ c :: rest)).isSome = true := by
  induction u with
  | nil =>
    show (findPidL ('p' :: 'i' :: 'd' :: ' ' :: ' ' :: c :: rest)).isSome = true
    rw [findPidL_cons]
    have hp : prefixOfL "pid  ".data
        ('p' :: 'i' :: 'd' :: ' ' :: ' ' :: c :: rest) = true := rfl
    rw [if_pos hp]
    have hd : digitsOf (('p' :: 'i' :: 'd' :: ' ' :: ' ' :: c :: rest).drop 5) =
        c :: digitsOf rest := by
      show digitsOf (c :: rest) = c :: digitsOf rest
      rw [digitsOf, if_pos hc]
    rw [hd]
    simp
  | cons x u' ih =>
    show (findPidL (x :: (u' ++ "pid  ".data ++ c :: rest))).isSome = true
    rw [findPidL_cons]
    by_cases hp : prefixOfL "pid  ".data
        (x :: (u' ++ "pid  ".data ++ c :: rest)) = true
    · rw [if_pos hp]
      by_cases he : (digitsOf ((x :: (u' ++ "pid  ".data ++ c :: rest)).drop 5)).isEmpty = true
      · rw [if_pos he]; exact ih
      · rw [if_neg he]; rfl
    · rw [if_neg hp]; exact ih

/-- Unfolding equation of `findPidDarwin` on a nonempty list. -/
theorem findPidDarwin_cons (c : Char) (cs : List Char) :
    findPidDarwin (c :: cs) =
      if prefixOfL "PID\" = ".data (c :: cs) then
        if !(digitsOf ((c :: cs).drop 7)).isEmpty &&
            ((((c :: cs).drop 7).drop
              (digitsOf ((c :: cs).drop 7)).length).head? == some ';') then
          some (digitsOf ((c :: cs).drop 7))
        else findPidDarwin cs
      else findPidDarwin cs := rfl

/-- Soundness of the launchd pid search: a returned digit run is nonempty,
all digits, and occurs in the scanned text between the literal `PID" = `
and a semicolon. -/
theorem findPidDarwin_sound {l ds : List Char}
    (h : findPidDarwin l = some ds) :
    ds ≠ [] ∧ (∀ c ∈ ds, c.isDigit = true) ∧
    ∃ u v, l = u ++ "PID\" = ".data ++ ds ++ ';' :: v := by
  induction l with
  | nil => simp [findPidDarwin] at h
  | cons c cs ih =>
    rw [findPidDarwin_cons] at h
    by_cases hp : prefixOfL "PID\" = ".data (c :: cs) = true
    · rw [if_pos hp] at h
      by_cases hcnd : (!(digitsOf ((c :: cs).drop 7)).isEmpty &&
          ((((c :: cs).drop 7).drop
            (digitsOf ((c :: cs).drop 7)).length).head? == some ';')) = true
      · rw [if_pos hcnd] at h
        have hds : digitsOf ((c :: cs).drop 7) = ds := Option.some.inj h
        have hcnd' := hcnd
        simp only [Bool.and_eq_true] at hcnd'
        obtain ⟨hne, hsemi⟩ := hcnd'
        obtain ⟨w, hw⟩ := prefixOfL_decomp hp
        have hlen : ("PID\" = ".data).length = 7 := rfl
        have hdrop : (c :: cs).drop 7 = w := by
          rw [hw, ← hlen, List.drop_left]
        have hds2 : digitsOf w = ds := by rw [← hdrop, hds]
        have hwdec : w = ds ++ w.drop ds.length := by
          conv_lhs => rw [digitsOf_decomp w]
          rw [hds2]
        have hsemi2 : (w.drop ds.length).head? = some ';' := by
          rw [hdrop, hds2] at hsemi
          exact eq_of_beq hsemi
        obtain ⟨v, hv⟩ : ∃ v, w.drop ds.length = ';' :: v := by
          cases hwd : w.drop ds.length with
          | nil => rw [hwd] at hsemi2; simp at hsemi2
          | cons a b =>
            rw [hwd] at hsemi2
            simp only [List.head?_cons, Option.some.injEq] at hsemi2
            exact ⟨b, by rw [hsemi2]⟩
        refine ⟨?_, ?_, [], v, ?_⟩
        · intro hds0
          rw [hds0] at hds2
          rw [hdrop, hds2] at hne
          simp at hne
        · rw [← hds2]; exact digitsOf_all w
        · rw [hw, List.nil_append]
          conv_lhs => rw [hwdec, hv]
          rw [List.append_assoc]
      · rw [if_neg hcnd] at h
        obtain ⟨h1, h2, u, v, hl⟩ := ih h
        exact ⟨h1, h2, c :: u, v, by simp [hl]⟩
    · rw [if_neg hp] at h
      obtain ⟨h1, h2, u, v, hl⟩ := ih h
      exact ⟨h1, h2, c :: u, v, by simp [hl]⟩

/-- Completeness of the launchd pid search: if the text contains the
literal `PID" = ` followed by a nonempty digit run and a semicolon, the
search succeeds. -/
theorem findPidDarwin_complete (u ds rest : List Char)
    (hne : ds ≠ []) (hdig : ∀ c ∈ ds, c.isDigit = true) :
    (findPidDarwin (u ++ "PID\" = ".data ++ (ds ++ ';' :: rest))).isSome
      = true := by
  induction u with
  | nil =>
    show (findPidDarwin ('P' :: 'I' :: 'D' :: '"' :: ' ' :: '=' :: ' ' ::
      (ds ++ ';' :: rest))).isSome = true
    rw [findPidDarwin_cons]
    have hp : prefixOfL "PID\" = ".data ('P' :: 'I' :: 'D' :: '"' :: ' ' ::
        '=' :: ' ' :: (ds ++ ';' :: rest)) = true := by
      show ((('P' : Char) == 'P') && _) = true
      simp [prefixOfL, prefixOfL_append]
    rw [if_pos hp]
    have hdrop : (('P' :: 'I' :: 'D' :: '"' :: ' ' :: '=' :: ' ' ::
        (ds ++ ';' :: rest)).drop 7) = ds ++ ';' :: rest := rfl
    have hdg : digitsOf (ds ++ ';' :: rest) = ds := digitsOf_append_semi ds rest hdig
    rw [hdrop, hdg]
    have hde : ds.isEmpty = false := by
      cases ds with
      | nil => exact absurd rfl hne
      | cons a b => rfl
    have hsemi : ((ds ++ ';' :: rest).drop ds.length).head? = some ';' := by
      rw [List.drop_left]
      rfl
    rw [hde, hsemi]
    rfl
  | cons x u' ih =>
    show (findPidDarwin (x :: (u' ++ "PID\" = ".data ++
      (ds ++ ';' :: rest)))).isSome = true
    rw [findPidDarwin_cons]
    by_cases hp : prefixOfL "PID\" = ".data (x :: (u' ++ "PID\" = ".data ++
        (ds ++ ';' :: rest))) = true
    · rw [if_pos hp]
      by_cases hcnd : (!(digitsOf ((x :: (u' ++ "PID\" = ".data ++
            (ds ++ ';' :: rest))).drop 7)).isEmpty &&
          ((((x :: (u' ++ "PID\" = ".data ++ (ds ++ ';' :: rest))).drop 7).drop
            (digitsOf ((x :: (u' ++ "PID\" = ".data ++
              (ds ++ ';' :: rest))).drop 7)).length).head? == some ';')) = true
      · rw [if_pos hcnd]; rfl
      · rw [if_neg hcnd]; exact ih
    · rw [if_neg hp]; exact ih

/-- C6: the status probe on either variant.  An erring status command or
output not containing the service name yields the stopped message with
`running = false` and no error (the functions return no error component at
all, mirroring `checkRunning`'s `(string, bool)` signature).  When the
output contains the name and a pid marker — the literal `"pid  "` followed
by a digit for rc.d, the literal `PID" = ` followed by digits and `;` for
launchd — the returned message embeds the digits actually present in the
output; with the name but no marker, the generic running message is
returned with `running = true`. -/
theorem c6_status_probe :
    (∀ name : String,
      bsdCheckRunningParse name none = ("Service is stopped", false)) ∧
    (∀ name o : String, hasSub o name = false →
      bsdCheckRunningParse name (some o) = ("Service is stopped", false)) ∧
    (∀ name o : String, hasSub o name = true → findPidL o.data = none →
      bsdCheckRunningParse name (some o) = ("Service is running...", true)) ∧
    (∀ (name o : String) (u rest : List Char) (c : Char),
      hasSub o name = true →
      o.data = u ++ "pid  ".data ++ c :: rest → c.isDigit = true →
      ∃ ds, findPidL o.data = some ds ∧ ds ≠ [] ∧
        (∀ d ∈ ds, d.isDigit = true) ∧
        (∃ u2 v2, o.data = u2 ++ "pid  ".data ++ ds ++ v2) ∧
        bsdCheckRunningParse name (some o) =
          ("Service (pid  " ++ String.mk ds ++ ") is running...", true)) ∧
    (∀ name : String,
      darwinCheckRunningParse name none = ("Service is stopped", false)) ∧
    (∀ name o : String, hasSub o name = false →
      darwinCheckRunningParse name (some o) = ("Service is stopped", false)) ∧
    (∀ name o : String, hasSub o name = true → findPidDarwin o.data = none →
      darwinCheckRunningParse name (some o) = ("Service is running...", true)) ∧
    (∀ (name o : String) (u ds rest : List Char),
      hasSub o name = true →
      o.data = u ++ "PID\" = ".data ++ (ds ++ ';' :: rest) →
      ds ≠ [] → (∀ d ∈ ds, d.isDigit = true) →
      ∃ ds2, findPidDarwin o.data = some ds2 ∧ ds2 ≠ [] ∧
        (∀ d ∈ ds2, d.isDigit = true) ∧
        (∃ u2 v2, o.data = u2 ++ "PID\" = ".data ++ ds2 ++ ';' :: v2) ∧
        darwinCheckRunningParse name (some o) =
          ("Service (pid  " ++ String.mk ds2 ++ ") is running...", true)) := by
  refine ⟨fun name => rfl, fun name o h => ?_, fun name o h1 h2 => ?_,
    fun name o u rest c h1 h2 h3 => ?_, fun name => rfl,
    fun name o h => ?_, fun name o h1 h2 => ?_,
    fun name o u ds rest h1 h2 h3 h4 => ?_⟩
  · simp [bsdCheckRunningParse, h]
  · simp [bsdCheckRunningParse, h1, h2]
  · have hsome : (findPidL o.data).isSome = true := by
      rw [h2]; exact findPidL_complete u c rest h3
    obtain ⟨ds, hds⟩ := Option.isSome_iff_exists.mp hsome
    obtain ⟨hne, hdig, u2, v2, hdec⟩ := findPidL_sound hds
    refine ⟨ds, hds, hne, hdig, ⟨u2, v2, hdec⟩, ?_⟩
    simp [bsdCheckRunningParse, h1, hds]
  · simp [darwinCheckRunningParse, h]
  · simp [darwinCheckRunningParse, h1, h2]
  · have hsome : (findPidDarwin o.data).isSome = true := by
      rw [h2]; exact findPidDarwin_complete u ds rest h3 h4
    obtain ⟨ds2, hds2⟩ := Option.isSome_iff_exists.mp hsome
    obtain ⟨hne, hdig, u2, v2, hdec⟩ := findPidDarwin_sound hds2
    refine ⟨ds2, hds2, hne, hdig, ⟨u2, v2, hdec⟩, ?_⟩
    simp [darwinCheckRunningParse, h1, hds2]

/-- Witness for the C6 theorem: concrete probes of both variants, with a
pid marker, and without one. -/
theorem c6_status_probe_witness :
    bsdCheckRunningParse "x" (some "x pid  1234!") =
      ("Service (pid  1234) is running...", true) ∧
    bsdCheckRunningParse "x" (some "nothing here") =
      ("Service is stopped", false) ∧
    darwinCheckRunningParse "x" (some "x \"PID\" = 77;") =
      ("Service (pid  77) is running...", true) := by
  refine ⟨?_, c6_status_probe.2.1 "x" "nothing here" (by decide), ?_⟩
  · obtain ⟨ds, hds, _, _, _, hparse⟩ :=
      c6_status_probe.2.2.2.1 "x" "x pid  1234!" "x ".data "234!".data '1'
        (by decide) (by decide) (by decide)
    have hfind : findPidL "x pid  1234!".data = some ['1', '2', '3', '4'] := by
      decide
    rw [hfind] at hds
    obtain rfl := (Option.some.inj hds).symm
    rw [hparse]
    decide
  · obtain ⟨ds, hds, _, _, _, hparse⟩ :=
      c6_status_probe.2.2.2.2.2.2.2 "x" "x \"PID\" = 77;" "x \"".data
        ['7', '7'] [] (by decide) (by decide) (by decide) (by decide)
    have hfind : findPidDarwin "x \"PID\" = 77;".data = some ['7', '7'] := by
      decide
    rw [hfind] at hds
    obtain rfl := (Option.some.inj hds).symm
    rw [hparse]
    decide

/-- The verb selection of `getCmd`: the persistent verb is kept exactly
when the enablement check returns `(true, nil)`; otherwise (not enabled,
or the check errs) the one-shot `"one"`-prefixed verb is used. -/
theorem getCmd_eq (name : String) (rc : Except Err String) (c : String) :
    getCmd name rc c =
      if (isEnabled name rc).1 && (isEnabled name rc).2.isNone then c
      else "one" ++ c := by
  unfold getCmd
  cases h : isEnabled name rc with
  | mk ok err => cases ok <;> cases err <;> simp

/-- C7: on the rc.d variant, whenever `Start` or `Stop` issues its
service-manager command, the verb is the persistent one exactly when the
enablement check returns enabled with no error (one-shot otherwise), and
the enablement evaluation (the `/etc/rc.conf` open) immediately precedes
the command in the event trace; when no start/stop command is issued, the
only `service` invocation in the trace is the status query. -/
theorem c7_verb_selection (r : Record) (env : Env) :
    ((∃ pre, (bsdStart r env).2 = pre ++ [Event.openRcConf,
        Event.execCmd "service" [r.name,
          if (isEnabled r.name env.rcConf).1 &&
              (isEnabled r.name env.rcConf).2.isNone
          then "start" else "onestart"]]) ∨
      (∀ v, Event.execCmd "service" [r.name, v] ∈ (bsdStart r env).2 →
        v = getCmd r.name env.rcConf "status")) ∧
    ((∃ pre, (bsdStop r env).2 = pre ++ [Event.openRcConf,
        Event.execCmd "service" [r.name,
          if (isEnabled r.name env.rcConf).1 &&
              (isEnabled r.name env.rcConf).2.isNone
          then "stop" else "onestop"]]) ∨
      (∀ v, Event.execCmd "service" [r.name, v] ∈ (bsdStop r env).2 →
        v = getCmd r.name env.rcConf "status")) := by
  obtain ⟨p, ssrv, epr, sex, cr, rr, chr, rc, so, rcr⟩ := env
  constructor
  · cases p with
    | some e =>
      right
      intro v hv
      simp [bsdStart] at hv
    | none =>
      cases ssrv with
      | some e =>
        right
        intro v hv
        simp [bsdStart] at hv
      | none =>
        by_cases hr : (bsdCheckRunningParse r.name so).2 = true
        · right
          intro v hv
          simp [bsdStart, hr] at hv
          exact hv
        · left
          refine ⟨[Event.checkPriv, Event.statFile (bsdServicePath r),
            Event.openRcConf,
            Event.execCmd "service" [r.name, getCmd r.name rc "status"]], ?_⟩
          cases rcr <;> simp [bsdStart, hr, getCmd_eq]
  · cases p with
    | some e =>
      right
      intro v hv
      simp [bsdStop] at hv
    | none =>
      cases ssrv with
      | some e =>
        right
        intro v hv
        simp [bsdStop] at hv
      | none =>
        by_cases hr : (bsdCheckRunningParse r.name so).2 = true
        · left
          refine ⟨[Event.checkPriv, Event.statFile (bsdServicePath r),
            Event.openRcConf,
            Event.execCmd "service" [r.name, getCmd r.name rc "status"]], ?_⟩
          cases rcr <;> simp [bsdStop, hr, getCmd_eq]
        · right
          intro v hv
          simp [bsdStop, hr] at hv
          exact hv

/-- Witness for the C7 theorem at a concrete record and environment
(installed, not running, not enabled). -/
theorem c7_verb_selection_witness :
    ((∃ pre, (bsdStart sampleRec { okEnv with statSrv := none }).2 =
        pre ++ [Event.openRcConf,
        Event.execCmd "service" [sampleRec.name,
          if (isEnabled sampleRec.name
                ({ okEnv with statSrv := none } : Env).rcConf).1 &&
              (isEnabled sampleRec.name
                ({ okEnv with statSrv := none } : Env).rcConf).2.isNone
          then "start" else "onestart"]]) ∨
      (∀ v, Event.execCmd "service" [sampleRec.name, v] ∈
          (bsdStart sampleRec { okEnv with statSrv := none }).2 →
        v = getCmd sampleRec.name
          ({ okEnv with statSrv := none } : Env).rcConf "status")) ∧
    ((∃ pre, (bsdStop sampleRec { okEnv with statSrv := none }).2 =
        pre ++ [Event.openRcConf,
        Event.execCmd "service" [sampleRec.name,
          if (isEnabled sampleRec.name
                ({ okEnv with statSrv := none } : Env).rcConf).1 &&
              (isEnabled sampleRec.name
                ({ okEnv with statSrv := none } : Env).rcConf).2.isNone
          then "stop" else "onestop"]]) ∨
      (∀ v, Event.execCmd "service" [sampleRec.name, v] ∈
          (bsdStop sampleRec { okEnv with statSrv := none }).2 →
        v = getCmd sampleRec.name
          ({ okEnv with statSrv := none } : Env).rcConf "status")) :=
  c7_verb_selection sampleRec { okEnv with statSrv := none }

/-- C8 counterexample: the claim states that `Start` on a running service
"issues no service-manager command".  On a concrete running environment,
`Start` does return `AlreadyRunningError` with the failure-suffixed
message, but its event trace contains a `service` invocation: the status
query that `checkRunning` performs.  A stub command recorder would record
it, so the claim as stated is false. -/
theorem c8_start_running_issues_status_command :
    (bsdCheckRunningParse sampleRec.name
      (({ okEnv with statSrv := none, statusOut := some "x is running" }
        : Env).statusOut)).2 = true ∧
    (bsdStart sampleRec
      { okEnv with statSrv := none, statusOut := some "x is running" }).1 =
      .ret ("Starting mydesc:" ++ failed) (some .alreadyRunning) ∧
    Event.execCmd "service" ["x", "onestatus"] ∈
      (bsdStart sampleRec
        { okEnv with statSrv := none, statusOut := some "x is running" }).2 := by
  refine ⟨rfl, rfl, ?_⟩
  decide

/-- C8 as amended: `Start` on a running service (with privileges held and
the descriptor installed) returns `AlreadyRunningError` with the
failure-suffixed message and issues no state-changing service-manager
command — the full trace shows the status query as the only command
invocation, with no `start`/`onestart` (rc.d) and no `launchctl load`
(launchd) event. -/
theorem c8_amended_no_mutating_command (r : Record) (env : Env)
    (hpriv : env.priv = none) (hinst : env.statSrv = none) :
    ((bsdCheckRunningParse r.name env.statusOut).2 = true →
      bsdStart r env =
        (.ret ("Starting " ++ r.description ++ ":" ++ failed)
          (some .alreadyRunning),
         [Event.checkPriv, Event.statFile (bsdServicePath r),
          Event.openRcConf,
          Event.execCmd "service" [r.name, getCmd r.name env.rcConf "status"]])) ∧
    ((darwinCheckRunningParse r.name env.statusOut).2 = true →
      darwinStart r env =
        (.ret ("Starting " ++ r.description ++ ":" ++ failed)
          (some .alreadyRunning),
         [Event.checkPriv, Event.statFile (darwinServicePath r),
          Event.execCmd "launchctl" ["list", r.name]])) := by
  constructor
  · intro hr
    simp [bsdStart, hpriv, hinst, hr]
  · intro hr
    simp [darwinStart, hpriv, hinst, hr]

/-- Witness for the amended C8 theorem on a concrete running environment. -/
theorem c8_amended_no_mutating_command_witness :
    bsdStart sampleRec
      { okEnv with statSrv := none, statusOut := some "x is running" } =
      (.ret ("Starting " ++ sampleRec.description ++ ":" ++ failed)
        (some .alreadyRunning),
       [Event.checkPriv, Event.statFile (bsdServicePath sampleRec),
        Event.openRcConf,
        Event.execCmd "service" [sampleRec.name,
          getCmd sampleRec.name
            (({ okEnv with statSrv := none, statusOut := some "x is running" }
              : Env).rcConf) "status"]]) :=
  (c8_amended_no_mutating_command sampleRec
    { okEnv with statSrv := none, statusOut := some "x is running" }
    rfl rfl).1 (by decide)

/-- Occurrence of a contiguous piece inside a rune sequence. -/
def embedsL (big piece : List Char) : Prop :=
  ∃ u v, big = u ++ piece ++ v

/-- A piece occurs at the head of itself followed by anything. -/
theorem embedsL_head (p y : List Char) : embedsL (p ++ y) p :=
  ⟨[], y, by simp⟩

/-- An occurrence is preserved by prepending. -/
theorem embedsL_left (a : List Char) {b p : List Char} (h : embedsL b p) :
    embedsL (a ++ b) p := by
  obtain ⟨u, v, rfl⟩ := h
  exact ⟨a ++ u, v, by simp⟩

/-- An occurrence is preserved by appending. -/
theorem embedsL_right {b p : List Char} (h : embedsL b p) (a : List Char) :
    embedsL (b ++ a) p := by
  obtain ⟨u, v, rfl⟩ := h
  exact ⟨u, v ++ a, by simp⟩

/-- Each argument's rendered entry occurs inside the rendered range
block. -/
theorem embedsL_plistEntries {args : List String} {a : String}
    (ha : a ∈ args) :
    embedsL (plistEntries args).data (plistEntry a).data := by
  induction args with
  | nil => simp at ha
  | cons x xs ih =>
    rcases List.mem_cons.mp ha with rfl | ha'
    · show embedsL (plistEntry a ++ plistEntries xs).data (plistEntry a).data
      rw [String.data_append]
      exact embedsL_head _ _
    · show embedsL (plistEntry x ++ plistEntries xs).data (plistEntry a).data
      rw [String.data_append]
      exact embedsL_left _ (ih ha')

set_option maxRecDepth 4000 in
/-- C9 counterexample: the claim states that descriptor rendering embeds
all of name, description, path and arguments verbatim.  For the record
with name `x`, description `mydesc`, path `/usr/bin/x` and args `["--a"]`,
the rc.d descriptor text does not contain the description at all: the
`bsdConfig` template has no `.Description` hole (and the launchd variant
does not even pass the description to its template). -/
theorem c9_description_not_embedded :
    hasSub (bsdConfigRender "x" "mydesc" "/usr/bin/x"
      (String.intercalate " " ["--a"])) "mydesc" = false := by
  decide

/-- C9 as amended: both descriptor renderings embed the name and the path
verbatim; the launchd rendering is exactly the fixed prefix, one array
entry per trailing argument in order, and the fixed suffix, and each
argument's entry occurs verbatim; the rc.d rendering appends the
space-joined arguments to the start command line (between `bsdPre`, which
ends in the `start_cmd` invocation, and the closing quote of `bsdPost`);
the description is not rendered: the rc.d output is independent of it. -/
theorem c9_amended_render_embedding (name desc path : String)
    (args : List String) :
    embedsL (bsdConfigRender name desc path
      (String.intercalate " " args)).data name.data ∧
    embedsL (bsdConfigRender name desc path
      (String.intercalate " " args)).data path.data ∧
    bsdConfigRender name desc path (String.intercalate " " args) =
      bsdPre name path ++ String.intercalate " " args ++ bsdPost ∧
    (∀ d2 : String,
      bsdConfigRender name desc path (String.intercalate " " args) =
      bsdConfigRender name d2 path (String.intercalate " " args)) ∧
    propertyListRender name path args =
      plistPre name path ++ plistEntries args ++ plistPost name ∧
    embedsL (propertyListRender name path args).data name.data ∧
    embedsL (propertyListRender name path args).data path.data ∧
    (∀ a ∈ args,
      embedsL (propertyListRender name path args).data (plistEntry a).data) := by
  refine ⟨?_, ?_, rfl, fun d2 => rfl, rfl, ?_, ?_, fun a ha => ?_⟩
  · simp only [bsdConfigRender, bsdPre, bsdPost, String.data_append,
      List.append_assoc]
    exact embedsL_left _ (embedsL_head _ _)
  · simp only [bsdConfigRender, bsdPre, bsdPost, String.data_append,
      List.append_assoc]
    repeat
      first
        | exact embedsL_head _ _
        | apply embedsL_left
  · simp only [propertyListRender, plistPre, plistPost, String.data_append,
      List.append_assoc]
    exact embedsL_left _ (embedsL_head _ _)
  · simp only [propertyListRender, plistPre, plistPost, String.data_append,
      List.append_assoc]
    repeat
      first
        | exact embedsL_head _ _
        | apply embedsL_left
  · simp only [propertyListRender, String.data_append, List.append_assoc]
    apply embedsL_left
    exact embedsL_right (embedsL_plistEntries ha) _

/-- Witness for the amended C9 theorem at the spec's example record. -/
theorem c9_amended_render_embedding_witness :
    embedsL (propertyListRender "x" "/usr/bin/x" ["--a"]).data
      (plistEntry "--a").data :=
  (c9_amended_render_embedding "x" "d" "/usr/bin/x" ["--a"]).2.2.2.2.2.2.2
    "--a" (by decide)

end DaemonVerif
